import Mathlib

/-!
# GST Bill Maker: the tax calculator and the editor's state updates

A shallow embedding of `gst_bill_maker_offline_pwa_ready_react_app.jsx`:
the `totals` memo, `weightedGST`, `update`, `addItem`, `removeItem`,
`unlockPro` and the inline item editors.

JavaScript numbers are modelled by `JsNum`: exact rationals extended with
`NaN`, `+Infinity` and `-Infinity`.  Rounding, overflow to infinity and the
sign of zero are not modelled; the special values follow IEEE 754.
JavaScript values stored in the state are modelled by `JsVal`, the primitive
values a JSON document or an input widget can supply.
-/

namespace GstBill

/-! ## Numbers -/

/-- A JavaScript number: an exact rational, or one of the three IEEE special values. -/
inductive JsNum where
  | fin (q : ℚ)
  | nan
  | pinf
  | ninf
  deriving DecidableEq, Repr

namespace JsNum

instance : Inhabited JsNum := ⟨fin 0⟩

/-- Unary minus. -/
def neg : JsNum → JsNum
  | fin a => fin (-a)
  | nan => nan
  | pinf => ninf
  | ninf => pinf

/-- The `+` operator of JavaScript on numbers. -/
def add : JsNum → JsNum → JsNum
  | nan, _ => nan
  | _, nan => nan
  | fin a, fin b => fin (a + b)
  | pinf, ninf => nan
  | ninf, pinf => nan
  | pinf, _ => pinf
  | _, pinf => pinf
  | ninf, _ => ninf
  | _, ninf => ninf

/-- The binary `-` operator. -/
def sub (a b : JsNum) : JsNum := add a (neg b)

/-- An infinity (positive or negative, as the flag says) times the finite factor `t`:
`NaN` when `t` is zero, otherwise the infinity with the product's sign. -/
def infTimes (positive : Bool) (t : ℚ) : JsNum :=
  if t = 0 then nan else if decide (0 < t) = positive then pinf else ninf

/-- The `*` operator. -/
def mul : JsNum → JsNum → JsNum
  | nan, _ => nan
  | _, nan => nan
  | fin a, fin b => fin (a * b)
  | pinf, pinf => pinf
  | ninf, ninf => pinf
  | pinf, ninf => ninf
  | ninf, pinf => ninf
  | pinf, fin b => infTimes true b
  | ninf, fin b => infTimes false b
  | fin a, pinf => infTimes true a
  | fin a, ninf => infTimes false a

/-- The `/` operator.  A zero divisor is taken to be `+0`. -/
def div : JsNum → JsNum → JsNum
  | nan, _ => nan
  | _, nan => nan
  | fin a, fin b =>
      if b = 0 then (if a = 0 then nan else if 0 < a then pinf else ninf) else fin (a / b)
  | fin _, pinf => fin 0
  | fin _, ninf => fin 0
  | pinf, fin b => if 0 ≤ b then pinf else ninf
  | ninf, fin b => if 0 ≤ b then ninf else pinf
  | pinf, pinf => nan
  | pinf, ninf => nan
  | ninf, pinf => nan
  | ninf, ninf => nan

/-- The `<=` operator: false as soon as one side is `NaN`. -/
def le : JsNum → JsNum → Bool
  | nan, _ => false
  | _, nan => false
  | fin a, fin b => decide (a ≤ b)
  | ninf, _ => true
  | _, pinf => true
  | pinf, _ => false
  | _, ninf => false

/-- The `<` operator: false as soon as one side is `NaN`. -/
def lt : JsNum → JsNum → Bool
  | nan, _ => false
  | _, nan => false
  | fin a, fin b => decide (a < b)
  | pinf, _ => false
  | _, ninf => false
  | ninf, _ => true
  | _, pinf => true

/-- The function `Math.max` on two arguments: `NaN` as soon as one is `NaN`. -/
def max : JsNum → JsNum → JsNum
  | nan, _ => nan
  | _, nan => nan
  | a, b => if le a b then b else a

instance : Add JsNum := ⟨add⟩
instance : Sub JsNum := ⟨sub⟩
instance : Mul JsNum := ⟨mul⟩
instance : Div JsNum := ⟨div⟩

/-- A number is finite when it is an ordinary rational. -/
def isFinite : JsNum → Bool
  | fin _ => true
  | _ => false

end JsNum

/-! ## Values -/

/-- A primitive JavaScript value, as found in the fields of the editor's state. -/
inductive JsVal where
  | undefined
  | null
  | bool (b : Bool)
  | num (n : JsNum)
  | str (s : String)
  deriving DecidableEq, Repr

namespace JsVal

instance : Inhabited JsVal := ⟨undefined⟩

/-- The truthiness of a value (`ToBoolean`): `undefined`, `null`, `false`, `0`, `NaN`
and the empty string are falsy. -/
def truthy : JsVal → Bool
  | undefined => false
  | null => false
  | bool b => b
  | num (JsNum.fin q) => decide (q ≠ 0)
  | num JsNum.nan => false
  | num _ => true
  | str s => decide (s ≠ "")

/-- The expression `a || b`. -/
def or (a b : JsVal) : JsVal := if a.truthy then a else b

/-- The strict equality `a === b`; `NaN` is not equal to itself. -/
def strictEq : JsVal → JsVal → Bool
  | undefined, undefined => true
  | null, null => true
  | bool a, bool b => decide (a = b)
  | num JsNum.nan, num _ => false
  | num _, num JsNum.nan => false
  | num a, num b => decide (a = b)
  | str a, str b => decide (a = b)
  | _, _ => false

/-- The strict inequality `a !== b`. -/
def strictNe (a b : JsVal) : Bool := !(strictEq a b)

/-- The operator `typeof v === 'string'`. -/
def isString : JsVal → Bool
  | str _ => true
  | _ => false

end JsVal

/-! ### `Number(string)` -/

/-- The characters `StringToNumber` strips from both ends: white space and line
terminators. -/
def isStrWhiteSpace (c : Char) : Bool :=
  let n := c.toNat
  n = 0x9 || n = 0xA || n = 0xB || n = 0xC || n = 0xD || n = 0x20 || n = 0xA0
    || n = 0x1680 || (0x2000 ≤ n && n ≤ 0x200A) || n = 0x2028 || n = 0x2029
    || n = 0x202F || n = 0x205F || n = 0x3000 || n = 0xFEFF

/-- Strip white space from both ends. -/
def trimWhiteSpace (cs : List Char) : List Char :=
  ((cs.dropWhile isStrWhiteSpace).reverse.dropWhile isStrWhiteSpace).reverse

/-- The value of one digit in the given base (2, 8, 10 or 16). -/
def digitVal (base : Nat) (c : Char) : Option Nat :=
  let n := c.toNat
  let v : Option Nat :=
    if 48 ≤ n ∧ n ≤ 57 then some (n - 48)
    else if 97 ≤ n ∧ n ≤ 102 then some (n - 87)
    else if 65 ≤ n ∧ n ≤ 70 then some (n - 55)
    else none
  v.bind (fun d => if d < base then some d else none)

/-- The value of a run of digits in the given base; `none` when a character is not a digit. -/
def digitsVal (base : Nat) (cs : List Char) : Option Nat :=
  cs.foldlM (fun acc c => (digitVal base c).map (fun d => acc * base + d)) 0

/-- A non-empty run of digits. -/
def nonEmptyDigits (base : Nat) (cs : List Char) : Option Nat :=
  if cs = [] then none else digitsVal base cs

/-- The exponent part after the mantissa: empty, or `e`/`E` and a signed integer. -/
def exponentPart (cs : List Char) : Option Int :=
  match cs with
  | [] => some 0
  | _ :: '+' :: ds => (nonEmptyDigits 10 ds).map Int.ofNat
  | _ :: '-' :: ds => (nonEmptyDigits 10 ds).map (fun n => - Int.ofNat n)
  | _ :: ds => (nonEmptyDigits 10 ds).map Int.ofNat

/-- The mantissa `digits`, `digits.`, `digits.digits` or `.digits`. -/
def mantissa (cs : List Char) : Option ℚ :=
  let ip := cs.takeWhile (fun c => c != '.')
  let r := cs.dropWhile (fun c => c != '.')
  match r with
  | [] => (nonEmptyDigits 10 ip).map (fun n => (n : ℚ))
  | _ :: fp =>
      if ip = [] ∧ fp = [] then none
      else
        (digitsVal 10 ip).bind (fun i =>
          (digitsVal 10 fp).map (fun f => ((i * 10 ^ fp.length + f : Nat) : ℚ) / (10 ^ fp.length : Nat)))

/-- The grammar `StrUnsignedDecimalLiteral`: `Infinity` or a decimal literal with an
optional exponent. -/
def unsignedDecimal (cs : List Char) : JsNum :=
  if cs = "Infinity".data then JsNum.pinf
  else
    let isE : Char → Bool := fun c => c == 'e' || c == 'E'
    let m := cs.takeWhile (fun c => !(isE c))
    let e := cs.dropWhile (fun c => !(isE c))
    match mantissa m, exponentPart e with
    | some q, some k => JsNum.fin (q * (10 : ℚ) ^ k)
    | _, _ => JsNum.nan

/-- The abstract operation `StringToNumber`: what `Number(s)` returns for a string. -/
def stringToNumber (s : String) : JsNum :=
  let cs := trimWhiteSpace s.data
  let nonDecimal (base : Nat) (ds : List Char) : JsNum :=
    match nonEmptyDigits base ds with
    | some n => JsNum.fin n
    | none => JsNum.nan
  match cs with
  | [] => JsNum.fin 0
  | '0' :: 'x' :: ds => nonDecimal 16 ds
  | '0' :: 'X' :: ds => nonDecimal 16 ds
  | '0' :: 'o' :: ds => nonDecimal 8 ds
  | '0' :: 'O' :: ds => nonDecimal 8 ds
  | '0' :: 'b' :: ds => nonDecimal 2 ds
  | '0' :: 'B' :: ds => nonDecimal 2 ds
  | '+' :: ds => unsignedDecimal ds
  | '-' :: ds => JsNum.neg (unsignedDecimal ds)
  | _ => unsignedDecimal cs

/-- The function `Number(v)` (`ToNumber`). -/
def Number : JsVal → JsNum
  | JsVal.undefined => JsNum.nan
  | JsVal.null => JsNum.fin 0
  | JsVal.bool b => if b then JsNum.fin 1 else JsNum.fin 0
  | JsVal.num n => n
  | JsVal.str s => stringToNumber s

/-- The idiom `Number(v || 0)` the calculator applies to every numeric field. -/
def numOrZero (v : JsVal) : JsNum := Number (v.or (.num (.fin 0)))

/-! ## The editor's state -/

/-- One line of the invoice. -/
structure Item where
  id : JsVal
  name : JsVal
  hsn : JsVal
  qty : JsVal
  price : JsVal
  gst : JsVal
  deriving DecidableEq, Repr

/-- The business profile (`data.profile`). -/
structure Profile where
  bizName : JsVal
  owner : JsVal
  phone : JsVal
  email : JsVal
  address : JsVal
  gstin : JsVal
  state : JsVal
  logo : JsVal
  deriving DecidableEq, Repr

/-- The client (`data.client`). -/
structure Client where
  name : JsVal
  phone : JsVal
  email : JsVal
  address : JsVal
  gstin : JsVal
  state : JsVal
  deriving DecidableEq, Repr

/-- The invoice (`data.invoice`). -/
structure Invoice where
  number : JsVal
  date : JsVal
  due : JsVal
  placeOfSupply : JsVal
  interState : JsVal
  notes : JsVal
  terms : JsVal
  items : List Item
  shipping : JsVal
  discount : JsVal
  deriving DecidableEq, Repr

/-- The whole state held by the `App` component (`data`). -/
structure State where
  profile : Profile
  client : Client
  invoice : Invoice
  proUnlocked : JsVal
  licenseKey : JsVal
  deriving DecidableEq, Repr

/-- The list `demoItems`; the identifier comes from `uid()`. -/
def demoItems (demoId : String) : List Item :=
  [{ id := .str demoId, name := .str "Driveway Sealcoating", hsn := .str "9954",
     qty := .num (.fin 1), price := .num (.fin 2500), gst := .num (.fin 18) }]

/-- The constant `defaultData`; `today` is the date string `new Date()` yields and
`demoId` the identifier `uid()` gave the demo item. -/
def defaultData (demoId today : String) : State :=
  { profile :=
      { bizName := .str "Your Business Name", owner := .str "Owner Name", phone := .str "",
        email := .str "", address := .str "", gstin := .str "", state := .str "Rajasthan",
        logo := .str "" }
    client :=
      { name := .str "Client Name", phone := .str "", email := .str "", address := .str "",
        gstin := .str "", state := .str "Rajasthan" }
    invoice :=
      { number := .str "INV-1001", date := .str today, due := .str "",
        placeOfSupply := .str "Rajasthan", interState := .bool false,
        notes := .str "Thank you for your business.", terms := .str "Payment due upon receipt.",
        items := demoItems demoId, shipping := .num (.fin 0), discount := .num (.fin 0) }
    proUnlocked := .bool false
    licenseKey := .str "" }

/-! ## The tax calculator -/

/-- The record `totals` returns. -/
structure Totals where
  sub : JsNum
  discount : JsNum
  shipping : JsNum
  cgst : JsNum
  sgst : JsNum
  igst : JsNum
  totalGST : JsNum
  grand : JsNum
  deriving DecidableEq, Repr

/-- The function `weightedGST(items)`. -/
def weightedGST (items : List Item) : JsNum :=
  let sub := items.foldl (fun s it => s + (numOrZero it.qty * numOrZero it.price)) (.fin 0)
  if JsNum.le sub (.fin 0) then .fin 0
  else
    items.foldl (fun s it =>
      let line := numOrZero it.qty * numOrZero it.price
      s + (line / sub) * (numOrZero it.gst / .fin 100)) (.fin 0)

/-- The memo `totals`, computed from `data.invoice`. -/
def totals (data : State) : Totals :=
  let sub :=
    data.invoice.items.foldl (fun s it => s + (numOrZero it.qty * numOrZero it.price)) (.fin 0)
  let discount := numOrZero data.invoice.discount
  let shipping := numOrZero data.invoice.shipping
  let taxable := JsNum.max (sub - discount) (.fin 0)
  let totalGST := taxable * weightedGST data.invoice.items
  let cgst := if !data.invoice.interState.truthy then totalGST / .fin 2 else .fin 0
  let sgst := if !data.invoice.interState.truthy then totalGST / .fin 2 else .fin 0
  let igst := if data.invoice.interState.truthy then totalGST else .fin 0
  let grand := taxable + shipping + totalGST
  { sub := sub, discount := discount, shipping := shipping, cgst := cgst, sgst := sgst,
    igst := igst, totalGST := totalGST, grand := grand }

/-- The value `gstAmt` that `totals` computes and does not return. -/
def gstAmt (data : State) : JsNum :=
  data.invoice.items.foldl
    (fun s it => s + (numOrZero it.qty * numOrZero it.price) * (numOrZero it.gst / .fin 100))
    (.fin 0)

/-! ## The editor's operations -/

/-- The worker of `splitPath`: `acc` holds the current segment, reversed. -/
def splitPathAux : List Char → List Char → List String
  | [], acc => [String.mk acc.reverse]
  | c :: cs, acc =>
      if c = '.' then String.mk acc.reverse :: splitPathAux cs [] else splitPathAux cs (c :: acc)

/-- The call `path.split(".")`. -/
def splitPath (path : String) : List String := splitPathAux path.data []

/-- The call `path.startsWith(p)`. -/
def startsWith (path p : String) : Bool := p.data.isPrefixOf path.data

/-- The assignment `cur[key] = value` when `cur` is the profile.  Only the declared
fields are modelled: `none` stands for an assignment that adds a new property. -/
def Profile.assign (p : Profile) (key : String) (value : JsVal) : Option Profile :=
  if key = "bizName" then some { p with bizName := value }
  else if key = "owner" then some { p with owner := value }
  else if key = "phone" then some { p with phone := value }
  else if key = "email" then some { p with email := value }
  else if key = "address" then some { p with address := value }
  else if key = "gstin" then some { p with gstin := value }
  else if key = "state" then some { p with state := value }
  else if key = "logo" then some { p with logo := value }
  else none

/-- The assignment `cur[key] = value` when `cur` is the client. -/
def Client.assign (c : Client) (key : String) (value : JsVal) : Option Client :=
  if key = "name" then some { c with name := value }
  else if key = "phone" then some { c with phone := value }
  else if key = "email" then some { c with email := value }
  else if key = "address" then some { c with address := value }
  else if key = "gstin" then some { c with gstin := value }
  else if key = "state" then some { c with state := value }
  else none

/-- The assignment `cur[key] = value` when `cur` is the invoice.  The item list is not a
primitive value, so `items` is not assignable in the model. -/
def Invoice.assign (v : Invoice) (key : String) (value : JsVal) : Option Invoice :=
  if key = "number" then some { v with number := value }
  else if key = "date" then some { v with date := value }
  else if key = "due" then some { v with due := value }
  else if key = "placeOfSupply" then some { v with placeOfSupply := value }
  else if key = "interState" then some { v with interState := value }
  else if key = "notes" then some { v with notes := value }
  else if key = "terms" then some { v with terms := value }
  else if key = "shipping" then some { v with shipping := value }
  else if key = "discount" then some { v with discount := value }
  else none

/-- The walk `cur = cur[keys[i]]` followed by `cur[keys.at(-1)] = value`, on the typed
state.  The result is `none` when the path leaves the declared fields (JavaScript would
add a property, overwrite a sub-object or throw). -/
def assignPath (next : State) (keys : List String) (value : JsVal) : Option State :=
  match keys with
  | [key] =>
      if key = "proUnlocked" then some { next with proUnlocked := value }
      else if key = "licenseKey" then some { next with licenseKey := value }
      else none
  | [obj, key] =>
      if obj = "profile" then (next.profile.assign key value).map (fun p => { next with profile := p })
      else if obj = "client" then (next.client.assign key value).map (fun c => { next with client := c })
      else if obj = "invoice" then (next.invoice.assign key value).map (fun v => { next with invoice := v })
      else none
  | _ => none

/-- The function `update(path, value)`, as the state transformer passed to `setData`. -/
def update (path : String) (value : JsVal) (prev : State) : Option State :=
  (assignPath prev (splitPath path) value).map (fun next =>
    if startsWith path "client.state" || startsWith path "invoice.placeOfSupply"
        || startsWith path "profile.state" then
      let inter := JsVal.strictNe next.profile.state next.client.state
      let next1 : State := { next with invoice := { next.invoice with interState := .bool inter } }
      { next1 with invoice :=
          { next1.invoice with placeOfSupply := next1.client.state.or next1.profile.state } }
    else next)

/-- The function `addItem()`; `newId` is the identifier `uid()` returns. -/
def addItem (newId : String) (prev : State) : State :=
  { prev with invoice :=
      { prev.invoice with items :=
          prev.invoice.items ++
            [{ id := .str newId, name := .str "", hsn := .str "", qty := .num (.fin 1),
               price := .num (.fin 0), gst := .num (.fin 18) }] } }

/-- The function `removeItem(id)`. -/
def removeItem (id : JsVal) (prev : State) : State :=
  { prev with invoice :=
      { prev.invoice with items := prev.invoice.items.filter (fun i => JsVal.strictNe i.id id) } }

/-- The five editable columns of an item row. -/
inductive ItemField where
  | name
  | hsn
  | qty
  | price
  | gst
  deriving DecidableEq, Repr

/-- The inline `onChange` handlers of an item row: `text` is `e.target.value` (for the
GST select, the chosen option); the numeric columns store `Number(text)`. -/
def editItem (id : JsVal) (field : ItemField) (text : String) (prev : State) : State :=
  let edit (x : Item) : Item :=
    match field with
    | .name => { x with name := .str text }
    | .hsn => { x with hsn := .str text }
    | .qty => { x with qty := .num (Number (.str text)) }
    | .price => { x with price := .num (Number (.str text)) }
    | .gst => { x with gst := .num (Number (.str text)) }
  { prev with invoice :=
      { prev.invoice with items :=
          prev.invoice.items.map (fun x => if JsVal.strictEq x.id id then edit x else x) } }

/-- The character class `[A-Z0-9]`. -/
def isKeyChar (c : Char) : Bool :=
  (65 ≤ c.toNat && c.toNat ≤ 90) || (48 ≤ c.toNat && c.toNat ≤ 57)

/-- The test `/^NSQ-(?:2025|2026)-[A-Z0-9]{6}$/.test(s)`. -/
def licensePattern (s : String) : Bool :=
  match s.data with
  | 'N' :: 'S' :: 'Q' :: '-' :: '2' :: '0' :: '2' :: y :: '-' :: rest =>
      (y == '5' || y == '6') && rest.length == 6 && rest.all isKeyChar
  | _ => false

/-- The check `ok` of `unlockPro`. -/
def licenseOk : JsVal → Bool
  | .str s => licensePattern s
  | _ => false

/-- The function `unlockPro(key)`; on a bad key it only raises an alert. -/
def unlockPro (key : JsVal) (prev : State) : State :=
  if licenseOk key then { prev with proUnlocked := .bool true, licenseKey := key } else prev

/-- The paths the user interface passes to `update`. -/
def uiPaths : List String :=
  ["licenseKey",
   "profile.bizName", "profile.owner", "profile.phone", "profile.email", "profile.address",
   "profile.gstin", "profile.state", "profile.logo",
   "client.name", "client.phone", "client.email", "client.gstin", "client.address",
   "client.state",
   "invoice.number", "invoice.date", "invoice.due", "invoice.placeOfSupply",
   "invoice.interState", "invoice.notes", "invoice.terms", "invoice.discount",
   "invoice.shipping"]

/-- One operation of the editor. -/
inductive Op where
  | update (path : String) (value : JsVal)
  | addItem (newId : String)
  | removeItem (id : JsVal)
  | editItem (id : JsVal) (field : ItemField) (text : String)
  | unlockPro (key : JsVal)
  deriving DecidableEq, Repr

/-- The effect of one operation; an `update` is accepted on the paths of the user
interface only. -/
def Op.apply : Op → State → Option State
  | .update path value, s => if path ∈ uiPaths then GstBill.update path value s else none
  | .addItem newId, s => some (GstBill.addItem newId s)
  | .removeItem id, s => some (GstBill.removeItem id s)
  | .editItem id field text, s => some (GstBill.editItem id field text s)
  | .unlockPro key, s => some (GstBill.unlockPro key s)

/-- Run a sequence of operations from a state. -/
def run : List Op → State → Option State
  | [], s => some s
  | op :: ops, s => (op.apply s).bind (run ops)

/-- The operation is the inter-state switch, `update("invoice.interState", v)`. -/
def Op.isInterStateSwitch : Op → Bool
  | .update path _ => decide (path = "invoice.interState")
  | _ => false

/-- The jurisdiction flag agrees with the comparison of the two states. -/
def interStateDerived (s : State) : Prop :=
  s.invoice.interState = .bool (JsVal.strictNe s.profile.state s.client.state)

instance (s : State) : Decidable (interStateDerived s) := by
  unfold interStateDerived; infer_instance

/-! ## The specification's formulas -/

/-- The sum of a list of numbers, written as the specification's "sum over items". -/
def JsNum.sum : List JsNum → JsNum
  | [] => .fin 0
  | x :: xs => x + JsNum.sum xs

/-- The line amount of the specification: quantity times unit price. -/
def lineAmount (it : Item) : JsNum := numOrZero it.qty * numOrZero it.price

/-- The subtotal of the specification: the sum over the items of quantity times unit
price. -/
def subtotalSpec (items : List Item) : JsNum := JsNum.sum (items.map lineAmount)

/-- The weighted rate of the specification: zero when the subtotal is not positive,
otherwise the sum over the items of (line / subtotal) times (rate / 100). -/
def weightedRateSpec (items : List Item) : JsNum :=
  if JsNum.le (subtotalSpec items) (.fin 0) then .fin 0
  else
    JsNum.sum (items.map (fun it =>
      (lineAmount it / subtotalSpec items) * (numOrZero it.gst / .fin 100)))

/-- The character set "A-Z or 0-9" of the specification. -/
def isUpperOrDigit (c : Char) : Prop := ('A' ≤ c ∧ c ≤ 'Z') ∨ ('0' ≤ c ∧ c ≤ '9')

/-- The key format in the specification's words: "NSQ-", then "2025" or "2026", then
"-", then six characters each in A-Z or 0-9. -/
def isLicenseKeyForm (s : String) : Prop :=
  ∃ year suffix : String,
    s = "NSQ-" ++ year ++ "-" ++ suffix ∧ (year = "2025" ∨ year = "2026") ∧
    suffix.length = 6 ∧ ∀ c ∈ suffix.data, isUpperOrDigit c

/-! ## Concrete invoices for the scenarios -/

/-- An item with the given quantity, price and rate, all finite numbers. -/
def numItem (id : String) (qty price gst : ℚ) : Item :=
  { id := .str id, name := .str "", hsn := .str "", qty := .num (.fin qty),
    price := .num (.fin price), gst := .num (.fin gst) }

/-- The default state with the given items, discount, shipping and jurisdiction flag. -/
def invoiceOf (items : List Item) (discount shipping : JsVal) (interState : JsVal) : State :=
  let d := defaultData "demo" "2025-01-01"
  { d with invoice :=
      { d.invoice with items := items, discount := discount, shipping := shipping,
                       interState := interState } }

/-! ## Arithmetic of `JsNum` -/

namespace JsNum

@[simp] theorem fin_add_fin (a b : ℚ) : fin a + fin b = fin (a + b) := rfl
@[simp] theorem fin_mul_fin (a b : ℚ) : fin a * fin b = fin (a * b) := rfl
@[simp] theorem fin_sub_fin (a b : ℚ) : fin a - fin b = fin (a - b) := by
  show add (fin a) (neg (fin b)) = _
  simp [add, neg, sub_eq_add_neg]
theorem fin_div_fin (a b : ℚ) (h : b ≠ 0) : fin a / fin b = fin (a / b) := by
  show div (fin a) (fin b) = _
  simp [div, h]
@[simp] theorem le_fin_fin (a b : ℚ) : le (fin a) (fin b) = decide (a ≤ b) := rfl
@[simp] theorem lt_fin_fin (a b : ℚ) : lt (fin a) (fin b) = decide (a < b) := rfl
@[simp] theorem max_fin_fin (a b : ℚ) : max (fin a) (fin b) = fin (Max.max a b) := by
  by_cases h : a ≤ b <;> simp [max, le, h]
  exact le_of_lt (lt_of_not_le h)

theorem add_def (a b : JsNum) : a + b = add a b := rfl
theorem sub_def (a b : JsNum) : a - b = add a (neg b) := rfl
theorem mul_def (a b : JsNum) : a * b = mul a b := rfl
theorem div_def (a b : JsNum) : a / b = div a b := rfl

@[simp] theorem nan_add (a : JsNum) : nan + a = nan := by cases a <;> rfl
@[simp] theorem add_nan (a : JsNum) : a + nan = nan := by cases a <;> rfl
@[simp] theorem nan_mul (a : JsNum) : nan * a = nan := by cases a <;> rfl
@[simp] theorem mul_nan (a : JsNum) : a * nan = nan := by cases a <;> rfl

@[simp] theorem fin_zero_add (a : JsNum) : fin 0 + a = a := by
  cases a <;> first | rfl | (show fin (0 + _) = _; simp)

@[simp] theorem add_fin_zero (a : JsNum) : a + fin 0 = a := by
  cases a <;> first | rfl | (show fin (_ + 0) = _; simp)

theorem add_assoc_js (a b c : JsNum) : a + b + c = a + (b + c) := by
  cases a <;> cases b <;> cases c <;>
    first | rfl | (show fin (_ + _ + _) = fin (_ + (_ + _)); rw [add_assoc])

theorem add_comm_js (a b : JsNum) : a + b = b + a := by
  cases a <;> cases b <;> first | rfl | (show fin (_ + _) = fin (_ + _); rw [add_comm])

/-- The left fold used by `reduce` is the initial value plus the sum of the terms. -/
theorem foldl_add_eq {α : Type} (f : α → JsNum) (l : List α) (a : JsNum) :
    l.foldl (fun s x => s + f x) a = a + JsNum.sum (l.map f) := by
  induction l generalizing a with
  | nil => simp [JsNum.sum]
  | cons x xs ih => simp only [List.foldl_cons, List.map_cons, JsNum.sum, ih, add_assoc_js]

/-- A `reduce` that starts from zero is the sum of the terms. -/
theorem foldl_zero_eq {α : Type} (f : α → JsNum) (l : List α) :
    l.foldl (fun s x => s + f x) (fin 0) = JsNum.sum (l.map f) := by
  rw [foldl_add_eq]; simp

end JsNum

/-! ## The calculator against the specification -/

/-- The subtotal `reduce` of the code is the specification's sum. -/
theorem sub_eq_subtotalSpec (items : List Item) :
    items.foldl (fun s it => s + (numOrZero it.qty * numOrZero it.price)) (.fin 0)
      = subtotalSpec items :=
  JsNum.foldl_zero_eq lineAmount items

/-- The function `weightedGST` computes the specification's weighted rate. -/
theorem weightedGST_eq_spec (items : List Item) : weightedGST items = weightedRateSpec items := by
  unfold weightedGST weightedRateSpec
  simp only [sub_eq_subtotalSpec]
  split
  · rfl
  · exact JsNum.foldl_zero_eq
      (fun it => (lineAmount it / subtotalSpec items) * (numOrZero it.gst / .fin 100)) items

/-- The fields of `totals`, with the subtotal written as the specification's sum. -/
theorem totals_sub (data : State) : (totals data).sub = subtotalSpec data.invoice.items :=
  sub_eq_subtotalSpec data.invoice.items

theorem totals_totalGST (data : State) :
    (totals data).totalGST =
      JsNum.max (subtotalSpec data.invoice.items - numOrZero data.invoice.discount) (.fin 0)
        * weightedGST data.invoice.items := by
  show JsNum.max (_ - _) (.fin 0) * _ = _
  rw [sub_eq_subtotalSpec]

theorem totals_grand (data : State) :
    (totals data).grand =
      JsNum.max (subtotalSpec data.invoice.items - numOrZero data.invoice.discount) (.fin 0)
        + numOrZero data.invoice.shipping + (totals data).totalGST := by
  rw [totals_totalGST]
  show JsNum.max (_ - _) (.fin 0) + _ + (JsNum.max (_ - _) (.fin 0) * _) = _
  rw [sub_eq_subtotalSpec]

@[simp] theorem numOrZero_fin (q : ℚ) : numOrZero (.num (.fin q)) = .fin q := by
  by_cases h : q = 0 <;> simp [numOrZero, JsVal.or, JsVal.truthy, Number, h]

/-- Claim C1: the total GST of every invoice is max(subtotal - discount, 0) times
weightedGST(items), so the tax is charged on the discounted base; on one item of 1000 at
18% with discount 100 it is 162, not the 180 the raw subtotal would give. -/
theorem C1_totalGST_on_taxable_base :
    (∀ data : State,
      (totals data).totalGST =
        JsNum.max (subtotalSpec data.invoice.items - numOrZero data.invoice.discount) (.fin 0)
          * weightedGST data.invoice.items) ∧
    (totals (invoiceOf [numItem "a" 1 1000 18] (.num (.fin 100)) (.num (.fin 0))
      (.bool false))).totalGST
      = .fin 162 := by
  refine ⟨totals_totalGST, ?_⟩
  rw [totals_totalGST, weightedGST_eq_spec]
  norm_num [invoiceOf, defaultData, numItem, weightedRateSpec, subtotalSpec, lineAmount,
    JsNum.sum, JsNum.fin_div_fin]

/-- Claim C2: weightedGST(items) is 0 when the subtotal (sum of quantity x price) is
<= 0 and otherwise the sum over the items of (quantity x price / subtotal) x
(gstRate / 100); for {qty 1, price 1000, gst 0} and {qty 1, price 1000, gst 18} it is
0.09. -/
theorem C2_weightedGST_formula :
    (∀ items : List Item,
      weightedGST items =
        if JsNum.le (subtotalSpec items) (.fin 0) then .fin 0
        else
          JsNum.sum (items.map (fun it =>
            (lineAmount it / subtotalSpec items) * (numOrZero it.gst / .fin 100)))) ∧
    (∀ id1 name1 hsn1 id2 name2 hsn2 : JsVal,
      weightedGST
        [{ id := id1, name := name1, hsn := hsn1, qty := .num (.fin 1), price := .num (.fin 1000),
           gst := .num (.fin 0) },
         { id := id2, name := name2, hsn := hsn2, qty := .num (.fin 1), price := .num (.fin 1000),
           gst := .num (.fin 18) }] = .fin (9 / 100)) := by
  refine ⟨weightedGST_eq_spec, ?_⟩
  intro id1 name1 hsn1 id2 name2 hsn2
  rw [weightedGST_eq_spec]
  norm_num [weightedRateSpec, subtotalSpec, lineAmount, JsNum.sum, JsNum.fin_div_fin]

/-- Halving a number and adding the halves gives the number back, also for the special
values. -/
theorem JsNum.half_add_half (x : JsNum) : x / .fin 2 + x / .fin 2 = x := by
  cases x with
  | fin q =>
      rw [JsNum.fin_div_fin q 2 (by norm_num), JsNum.fin_add_fin]
      congr 1
      ring
  | nan => rfl
  | pinf => show JsNum.add (JsNum.div .pinf (.fin 2)) (JsNum.div .pinf (.fin 2)) = _
            simp [JsNum.div, JsNum.add]
  | ninf => show JsNum.add (JsNum.div .ninf (.fin 2)) (JsNum.div .ninf (.fin 2)) = _
            simp [JsNum.div, JsNum.add]

/-- Claim C4: the grand total of every invoice is max(subtotal - discount, 0) + shipping
+ totalGST; for the single item {qty 1, price 2500, gst 18} with discount 0, shipping 0,
intra-state, the subtotal is 2500, totalGST 450, cgst 225, sgst 225 and the grand total
2950. -/
theorem C4_grand_total :
    (∀ data : State,
      (totals data).grand =
        JsNum.max (subtotalSpec data.invoice.items - numOrZero data.invoice.discount) (.fin 0)
          + numOrZero data.invoice.shipping + (totals data).totalGST) ∧
    (∀ id name hsn : JsVal,
      totals (invoiceOf
          [{ id := id, name := name, hsn := hsn, qty := .num (.fin 1), price := .num (.fin 2500),
             gst := .num (.fin 18) }]
          (.num (.fin 0)) (.num (.fin 0)) (.bool false)) =
        { sub := .fin 2500, discount := .fin 0, shipping := .fin 0, cgst := .fin 225,
          sgst := .fin 225, igst := .fin 0, totalGST := .fin 450, grand := .fin 2950 }) := by
  refine ⟨totals_grand, ?_⟩
  intro id name hsn
  unfold totals
  rw [weightedGST_eq_spec]
  norm_num [invoiceOf, defaultData, weightedRateSpec, subtotalSpec, lineAmount,
    JsNum.sum, JsNum.fin_div_fin, JsVal.truthy]

/-- Claim C5: the subtotal `sub` returned by `totals` is the sum over the items of
quantity x unit price, a function of the (quantity, price) pairs alone, and is 0 for the
empty item list whatever the discount, the shipping and the flag are. -/
theorem C5_subtotal_sum :
    (∀ data : State,
      (totals data).sub =
        JsNum.sum ((data.invoice.items.map (fun it => (it.qty, it.price))).map
          (fun qp => numOrZero qp.1 * numOrZero qp.2))) ∧
    (∀ data : State, (totals { data with invoice := { data.invoice with items := [] } }).sub
      = .fin 0) := by
  refine ⟨?_, ?_⟩
  · intro data
    rw [totals_sub, subtotalSpec, List.map_map]
    rfl
  · intro data
    rfl

/-- A falsy value (`undefined`, `null`, `false`, `0`, `NaN`, the empty string) is read
as zero by `Number(v || 0)`. -/
theorem numOrZero_of_falsy (v : JsVal) (h : v.truthy = false) : numOrZero v = .fin 0 := by
  simp [numOrZero, JsVal.or, h, Number]

/-- The result of `totals` written with the specification's sums. -/
theorem totals_eq_spec (data : State) :
    totals data =
      let sub := subtotalSpec data.invoice.items
      let taxable := JsNum.max (sub - numOrZero data.invoice.discount) (.fin 0)
      let totalGST := taxable * weightedRateSpec data.invoice.items
      { sub := sub, discount := numOrZero data.invoice.discount,
        shipping := numOrZero data.invoice.shipping,
        cgst := if !data.invoice.interState.truthy then totalGST / .fin 2 else .fin 0,
        sgst := if !data.invoice.interState.truthy then totalGST / .fin 2 else .fin 0,
        igst := if data.invoice.interState.truthy then totalGST else .fin 0,
        totalGST := totalGST,
        grand := taxable + numOrZero data.invoice.shipping + totalGST } := by
  unfold totals
  simp only [sub_eq_subtotalSpec, weightedGST_eq_spec]

/-- Claim C6, as stated, fails: a quantity of `Infinity` gives an infinite subtotal and a
`NaN` grand total, and the non-numeric quantity `"abc"` gives `NaN` everywhere, while the
same invoice with quantity 0 has subtotal 0 and grand total 0; an infinite discount wipes
out the taxable base instead of being read as 0. -/
theorem C6_counterexample :
    totals (invoiceOf [{ numItem "a" 1 100 18 with qty := .num .pinf }] (.num (.fin 0))
        (.num (.fin 0)) (.bool false)) =
      { sub := .pinf, discount := .fin 0, shipping := .fin 0, cgst := .nan, sgst := .nan,
        igst := .fin 0, totalGST := .nan, grand := .nan } ∧
    totals (invoiceOf [{ numItem "a" 1 100 18 with qty := .str "abc" }] (.num (.fin 0))
        (.num (.fin 0)) (.bool false)) =
      { sub := .nan, discount := .fin 0, shipping := .fin 0, cgst := .nan, sgst := .nan,
        igst := .fin 0, totalGST := .nan, grand := .nan } ∧
    totals (invoiceOf [{ numItem "a" 1 100 18 with qty := .num (.fin 0) }] (.num (.fin 0))
        (.num (.fin 0)) (.bool false)) =
      { sub := .fin 0, discount := .fin 0, shipping := .fin 0, cgst := .fin 0, sgst := .fin 0,
        igst := .fin 0, totalGST := .fin 0, grand := .fin 0 } ∧
    (totals (invoiceOf [numItem "a" 1 100 18] (.num .pinf) (.num (.fin 0))
        (.bool false))).grand = .fin 0 ∧
    (totals (invoiceOf [numItem "a" 1 100 18] (.num (.fin 0)) (.num (.fin 0))
        (.bool false))).grand = .fin 118 := by
  have habc : stringToNumber "abc" = .nan := by decide
  have hne : ¬ ("abc" : String) = "" := by decide
  refine ⟨?_, ?_, ?_, ?_, ?_⟩ <;> rw [totals_eq_spec] <;>
    norm_num [invoiceOf, defaultData, numItem, weightedRateSpec, subtotalSpec, lineAmount,
      JsNum.sum, JsVal.truthy, numOrZero, JsVal.or, Number, habc, hne, JsNum.add_def, JsNum.sub_def,
      JsNum.mul_def, JsNum.div_def, JsNum.add, JsNum.mul, JsNum.div, JsNum.neg, JsNum.max,
      JsNum.le, JsNum.infTimes]

/-- Claim C6, amended: `totals` is a total function, and a quantity, price, GST rate,
discount or shipping that is falsy (missing, `null`, `false`, the empty string, `NaN` or
0) is read as zero: the result equals the result with that field replaced by 0. -/
theorem C6_falsy_field_read_as_zero (data : State) (v : JsVal) (h : v.truthy = false) :
    totals { data with invoice := { data.invoice with discount := v } } =
      totals { data with invoice := { data.invoice with discount := .num (.fin 0) } } ∧
    totals { data with invoice := { data.invoice with shipping := v } } =
      totals { data with invoice := { data.invoice with shipping := .num (.fin 0) } } ∧
    (∀ (before after : List Item) (it : Item),
      totals { data with invoice :=
          { data.invoice with items := before ++ { it with qty := v } :: after } } =
        totals { data with invoice :=
          { data.invoice with items := before ++ { it with qty := .num (.fin 0) } :: after } } ∧
      totals { data with invoice :=
          { data.invoice with items := before ++ { it with price := v } :: after } } =
        totals { data with invoice :=
          { data.invoice with items := before ++ { it with price := .num (.fin 0) } :: after } } ∧
      totals { data with invoice :=
          { data.invoice with items := before ++ { it with gst := v } :: after } } =
        totals { data with invoice :=
          { data.invoice with items := before ++ { it with gst := .num (.fin 0) } :: after } }) := by
  have hv := numOrZero_of_falsy v h
  refine ⟨?_, ?_, ?_⟩
  · simp only [totals_eq_spec, hv, numOrZero_fin]
  · simp only [totals_eq_spec, hv, numOrZero_fin]
  · intro before after it
    refine ⟨?_, ?_, ?_⟩ <;>
      simp only [totals_eq_spec, weightedRateSpec, subtotalSpec, lineAmount, List.map_append,
        List.map_cons, hv, numOrZero_fin]

/-- The default invoice with its discount missing (`undefined`) has the totals of the
default invoice. -/
theorem C6_falsy_field_read_as_zero_witness :
    JsVal.undefined.truthy = false ∧
    totals { defaultData "demo" "2025-01-01" with invoice :=
        { (defaultData "demo" "2025-01-01").invoice with discount := .undefined } } =
      totals { defaultData "demo" "2025-01-01" with invoice :=
        { (defaultData "demo" "2025-01-01").invoice with discount := .num (.fin 0) } } :=
  ⟨rfl, (C6_falsy_field_read_as_zero (defaultData "demo" "2025-01-01") .undefined rfl).1⟩

/-! ## Finite inputs -/

theorem JsNum.isFinite_iff (x : JsNum) : x.isFinite = true ↔ ∃ q, x = .fin q := by
  cases x <;> simp [JsNum.isFinite]

theorem JsNum.isFinite_add (a b : JsNum) :
    (a + b).isFinite = true ↔ a.isFinite = true ∧ b.isFinite = true := by
  cases a <;> cases b <;> simp [JsNum.isFinite, JsNum.add_def, JsNum.add]

theorem JsNum.isFinite_mul (a b : JsNum) (ha : a.isFinite = true) (hb : b.isFinite = true) :
    (a * b).isFinite = true := by
  cases a <;> cases b <;> simp_all [JsNum.isFinite, JsNum.mul_def, JsNum.mul]

/-- A sum is finite exactly when every term is. -/
theorem JsNum.isFinite_sum (l : List JsNum) :
    (JsNum.sum l).isFinite = true ↔ ∀ x ∈ l, x.isFinite = true := by
  induction l with
  | nil => simp [JsNum.sum, JsNum.isFinite]
  | cons x xs ih => simp [JsNum.sum, JsNum.isFinite_add, ih]

/-- With a finite positive subtotal and finite rates the weighted rate is finite. -/
theorem weightedRateSpec_isFinite (items : List Item)
    (hsub : (subtotalSpec items).isFinite = true)
    (hgst : ∀ it ∈ items, (numOrZero it.gst).isFinite = true) :
    (weightedRateSpec items).isFinite = true := by
  unfold weightedRateSpec
  split
  · rfl
  · rename_i hle
    obtain ⟨S, hS⟩ := (JsNum.isFinite_iff _).1 hsub
    have hS0 : S ≠ 0 := by
      intro h0
      rw [hS, h0] at hle
      simp at hle
    rw [JsNum.isFinite_sum]
    intro x hx
    obtain ⟨it, hit, rfl⟩ := List.mem_map.1 hx
    have hline : (lineAmount it).isFinite = true := by
      have := (JsNum.isFinite_sum _).1 hsub (lineAmount it) (List.mem_map.2 ⟨it, hit, rfl⟩)
      exact this
    obtain ⟨l, hl⟩ := (JsNum.isFinite_iff _).1 hline
    obtain ⟨g, hg⟩ := (JsNum.isFinite_iff _).1 (hgst it hit)
    rw [hS, hl, hg, JsNum.fin_div_fin _ _ hS0, JsNum.fin_div_fin _ _ (by norm_num)]
    rfl

/-- A discount above the subtotal leaves a zero taxable base. -/
theorem taxable_zero_of_lt (sub discount : JsNum) (h : JsNum.lt sub discount = true) :
    JsNum.max (sub - discount) (.fin 0) = .fin 0 := by
  cases sub with
  | fin a =>
      cases discount with
      | fin b =>
          have hab : a < b := by simpa [JsNum.lt] using h
          rw [JsNum.fin_sub_fin, JsNum.max_fin_fin]
          congr 1
          exact max_eq_right (by linarith)
      | nan => simp [JsNum.lt] at h
      | pinf => simp [JsNum.sub_def, JsNum.add, JsNum.neg, JsNum.max, JsNum.le]
      | ninf => simp [JsNum.lt] at h
  | nan => simp [JsNum.lt] at h
  | pinf => cases discount <;> simp [JsNum.lt] at h
  | ninf =>
      cases discount <;>
        simp_all [JsNum.lt, JsNum.sub_def, JsNum.add, JsNum.neg, JsNum.max, JsNum.le]

/-- The left side of a true `<` is finite or `-Infinity`. -/
theorem JsNum.finite_or_le_zero_of_lt (a b : JsNum) (h : JsNum.lt a b = true) :
    a.isFinite = true ∨ JsNum.le a (.fin 0) = true := by
  cases a <;> cases b <;> simp_all [JsNum.lt, JsNum.le, JsNum.isFinite]

/-- Items with finite non-negative quantities and prices and the common rate `R`: the
subtotal is a non-negative rational `S`, and the sum of the weighted rates over a divisor
`D` is `S / D * (R / 100)`. -/
theorem uniform_rate_sums (items : List Item) (R : ℚ)
    (hitems : ∀ it ∈ items, ∃ q p : ℚ, 0 ≤ q ∧ 0 ≤ p ∧
      numOrZero it.qty = .fin q ∧ numOrZero it.price = .fin p ∧ numOrZero it.gst = .fin R) :
    ∃ S : ℚ, 0 ≤ S ∧ subtotalSpec items = .fin S ∧
      ∀ D : ℚ, D ≠ 0 →
        JsNum.sum (items.map (fun it =>
          (lineAmount it / .fin D) * (numOrZero it.gst / .fin 100))) = .fin (S / D * (R / 100)) := by
  induction items with
  | nil => exact ⟨0, le_refl 0, rfl, fun D _ => by simp [JsNum.sum]⟩
  | cons it rest ih =>
      obtain ⟨S, hS0, hS, hW⟩ := ih (fun x hx => hitems x (List.mem_cons_of_mem _ hx))
      obtain ⟨q, p, hq, hp, hqty, hprice, hgst⟩ := hitems it (List.mem_cons_self _ _)
      have hline : lineAmount it = .fin (q * p) := by
        rw [lineAmount, hqty, hprice, JsNum.fin_mul_fin]
      refine ⟨q * p + S, add_nonneg (mul_nonneg hq hp) hS0, ?_, ?_⟩
      · show lineAmount it + subtotalSpec rest = _
        rw [hline, hS, JsNum.fin_add_fin]
      · intro D hD
        simp only [List.map_cons, JsNum.sum]
        rw [hW D hD, hline, hgst, JsNum.fin_div_fin _ _ hD,
          JsNum.fin_div_fin _ _ (by norm_num), JsNum.fin_mul_fin, JsNum.fin_add_fin]
        congr 1
        ring

/-- What `update("profile.state", v)` returns. -/
theorem update_profile_state (data : State) (v : JsVal) :
    update "profile.state" v data = some
      { data with
        profile := { data.profile with state := v }
        invoice := { data.invoice with
          interState := .bool (JsVal.strictNe v data.client.state)
          placeOfSupply := data.client.state.or v } } := by
  simp [update, splitPath, splitPathAux, assignPath, Profile.assign, startsWith]

/-- What `update("client.state", v)` returns. -/
theorem update_client_state (data : State) (v : JsVal) :
    update "client.state" v data = some
      { data with
        client := { data.client with state := v }
        invoice := { data.invoice with
          interState := .bool (JsVal.strictNe data.profile.state v)
          placeOfSupply := v.or data.profile.state } } := by
  simp [update, splitPath, splitPathAux, assignPath, Client.assign, startsWith]

/-- Claim C9: update("profile.state", v) and update("client.state", v) succeed and give
a state whose invoice.interState is (profile.state !== client.state) on the new states,
whose invoice.placeOfSupply is the new client.state, or the new profile.state when the
client state is empty (falsy), and in which nothing else changed but the state field that
was set. -/
theorem C9_state_change_recomputes (data : State) (v : JsVal) :
    (∃ next : State, update "profile.state" v data = some next ∧
      next.invoice.interState = .bool (JsVal.strictNe next.profile.state next.client.state) ∧
      next.invoice.placeOfSupply =
        (if next.client.state.truthy then next.client.state else next.profile.state) ∧
      next = { data with
        profile := { data.profile with state := v }
        invoice := { data.invoice with
          interState := next.invoice.interState
          placeOfSupply := next.invoice.placeOfSupply } }) ∧
    (∃ next : State, update "client.state" v data = some next ∧
      next.invoice.interState = .bool (JsVal.strictNe next.profile.state next.client.state) ∧
      next.invoice.placeOfSupply =
        (if next.client.state.truthy then next.client.state else next.profile.state) ∧
      next = { data with
        client := { data.client with state := v }
        invoice := { data.invoice with
          interState := next.invoice.interState
          placeOfSupply := next.invoice.placeOfSupply } }) ∧
    (∀ s : String, (JsVal.str s).truthy = false ↔ s = "") := by
  refine ⟨⟨_, update_profile_state data v, rfl, rfl, rfl⟩,
    ⟨_, update_client_state data v, rfl, rfl, rfl⟩, ?_⟩
  intro s
  simp [JsVal.truthy]

/-- Claim C10, as stated, fails: from the default state (both states "Rajasthan", flag
false) the inter-state switch, update("invoice.interState", true), gives a state whose
flag is true while the business and client states are still equal. -/
theorem C10_counterexample :
    run [Op.update "invoice.interState" (.bool true)] (defaultData "demo" "2025-01-01") =
      some { defaultData "demo" "2025-01-01" with
        invoice := { (defaultData "demo" "2025-01-01").invoice with interState := .bool true } } ∧
    ¬ interStateDerived { defaultData "demo" "2025-01-01" with
        invoice := { (defaultData "demo" "2025-01-01").invoice with interState := .bool true } } := by
  refine ⟨?_, ?_⟩
  · simp [run, Op.apply, uiPaths, update, splitPath, splitPathAux, assignPath, Invoice.assign,
      startsWith]
  · simp [interStateDerived, defaultData, JsVal.strictNe, JsVal.strictEq]

/-- Every operation other than the inter-state switch keeps the flag equal to the
comparison of the two states. -/
theorem Op.apply_preserves_derived (op : Op) (s next : State)
    (hop : op.isInterStateSwitch = false) (happ : op.apply s = some next)
    (hinv : interStateDerived s) : interStateDerived next := by
  cases op with
  | update path value =>
      simp only [Op.apply] at happ
      split at happ
      · rename_i hmem
        simp only [Op.isInterStateSwitch, decide_eq_false_iff_not] at hop
        simp only [uiPaths, List.mem_cons, List.mem_singleton, List.not_mem_nil, or_false] at hmem
        unfold interStateDerived at hinv ⊢
        rcases hmem with rfl | rfl | rfl | rfl | rfl | rfl | rfl | rfl | rfl | rfl | rfl | rfl | rfl | rfl | rfl | rfl | rfl | rfl | rfl | rfl | rfl | rfl | rfl | rfl <;>
          first
          | exact absurd rfl hop
          | (simp [GstBill.update, splitPath, splitPathAux, assignPath, Profile.assign, Client.assign,
              Invoice.assign, startsWith] at happ
             subst happ
             first | exact hinv | rfl)
      · exact absurd happ (by simp)
  | addItem newId =>
      simp only [Op.apply, Option.some.injEq] at happ
      subst happ
      exact hinv
  | removeItem id =>
      simp only [Op.apply, Option.some.injEq] at happ
      subst happ
      exact hinv
  | editItem id field text =>
      simp only [Op.apply, Option.some.injEq] at happ
      subst happ
      exact hinv
  | unlockPro key =>
      simp only [Op.apply, Option.some.injEq] at happ
      subst happ
      unfold interStateDerived GstBill.unlockPro at *
      split <;> exact hinv

/-- Claim C10, amended: in every state reached from the default state through the editor's
operations other than the inter-state switch (update on the other paths of the user
interface, addItem, removeItem, the item editors, unlockPro), invoice.interState equals
(profile.state !== client.state). -/
theorem C10_interState_derived_without_switch (demoId today : String) (ops : List Op)
    (s : State) (hops : ∀ op ∈ ops, op.isInterStateSwitch = false)
    (hrun : run ops (defaultData demoId today) = some s) : interStateDerived s := by
  have hgen : ∀ (ops : List Op) (s0 s : State), (∀ op ∈ ops, op.isInterStateSwitch = false) →
      run ops s0 = some s → interStateDerived s0 → interStateDerived s := by
    intro ops
    induction ops with
    | nil =>
        intro s0 s _ hrun hinv
        simp only [run, Option.some.injEq] at hrun
        subst hrun
        exact hinv
    | cons op rest ih =>
        intro s0 s hops hrun hinv
        simp only [run] at hrun
        cases hstep : op.apply s0 with
        | none => rw [hstep] at hrun; exact absurd hrun (by simp)
        | some mid =>
            rw [hstep] at hrun
            exact ih mid s (fun o ho => hops o (List.mem_cons_of_mem _ ho)) hrun
              (Op.apply_preserves_derived op s0 mid (hops op (List.mem_cons_self _ _)) hstep hinv)
  exact hgen ops _ s hops hrun (by simp [interStateDerived, defaultData, JsVal.strictNe,
    JsVal.strictEq])

/-- Choosing the client state "Goa" and then adding an item, from the default state,
leaves the flag true, the comparison of "Rajasthan" with "Goa". -/
theorem C10_interState_derived_without_switch_witness :
    run [Op.update "client.state" (.str "Goa"), Op.addItem "x1"]
        (defaultData "demo" "2025-01-01") =
      some (addItem "x1"
        { defaultData "demo" "2025-01-01" with
          client := { (defaultData "demo" "2025-01-01").client with state := .str "Goa" }
          invoice := { (defaultData "demo" "2025-01-01").invoice with
            interState := .bool true, placeOfSupply := .str "Goa" } }) ∧
    interStateDerived (addItem "x1"
        { defaultData "demo" "2025-01-01" with
          client := { (defaultData "demo" "2025-01-01").client with state := .str "Goa" }
          invoice := { (defaultData "demo" "2025-01-01").invoice with
            interState := .bool true, placeOfSupply := .str "Goa" } }) := by
  have hrun : run [Op.update "client.state" (.str "Goa"), Op.addItem "x1"]
        (defaultData "demo" "2025-01-01") =
      some (addItem "x1"
        { defaultData "demo" "2025-01-01" with
          client := { (defaultData "demo" "2025-01-01").client with state := .str "Goa" }
          invoice := { (defaultData "demo" "2025-01-01").invoice with
            interState := .bool true, placeOfSupply := .str "Goa" } }) := by
    simp [run, Op.apply, uiPaths, update_client_state, defaultData, JsVal.strictNe,
      JsVal.strictEq, JsVal.or, JsVal.truthy]
  exact ⟨hrun, C10_interState_derived_without_switch "demo" "2025-01-01" _ _
    (by intro op hop
        simp only [List.mem_cons, List.mem_singleton, List.not_mem_nil, or_false] at hop
        rcases hop with rfl | rfl
        · simp [Op.isInterStateSwitch]
        · rfl)
    hrun⟩

/-! ## The license key -/

/-- The class `[A-Z0-9]` of the code is the specification's character set. -/
theorem isKeyChar_iff (c : Char) : isKeyChar c = true ↔ isUpperOrDigit c := by
  have hle : ∀ a b : Char, a ≤ b ↔ a.toNat ≤ b.toNat := fun a b => Iff.rfl
  simp only [isKeyChar, isUpperOrDigit, hle, Bool.or_eq_true, Bool.and_eq_true,
    decide_eq_true_eq]
  rfl

/-- The regular expression of the code accepts exactly the keys of the specified form. -/
theorem licensePattern_iff (s : String) : licensePattern s = true ↔ isLicenseKeyForm s := by
  constructor
  · intro h
    unfold licensePattern at h
    split at h
    · rename_i y rest hdata
      simp only [Bool.and_eq_true, Bool.or_eq_true, beq_iff_eq, List.all_eq_true] at h
      obtain ⟨⟨hy, hlen⟩, hall⟩ := h
      refine ⟨String.mk ['2', '0', '2', y], String.mk rest, ?_, ?_, hlen, ?_⟩
      · apply String.ext
        simp [hdata]
      · rcases hy with rfl | rfl
        · exact Or.inl rfl
        · exact Or.inr rfl
      · intro c hc
        exact (isKeyChar_iff c).1 (hall c hc)
    · exact absurd h (by simp)
  · rintro ⟨year, suffix, rfl, hy, hlen, hall⟩
    have hall2 : suffix.data.all isKeyChar = true := by
      rw [List.all_eq_true]
      exact fun c hc => (isKeyChar_iff c).2 (hall c hc)
    have hlen2 : suffix.data.length = 6 := hlen
    rcases hy with rfl | rfl <;>
      simp [licensePattern, String.data_append, hall2, hlen2]

/-- The check of `unlockPro` succeeds exactly on a string of the specified form. -/
theorem licenseOk_iff (key : JsVal) :
    licenseOk key = true ↔ ∃ s : String, key = .str s ∧ isLicenseKeyForm s := by
  cases key with
  | str s => simp [licenseOk, licensePattern_iff]
  | _ => simp [licenseOk]

/-- Claim C11: unlockPro(key) takes its unlocking branch if and only if key is a string
of the form "NSQ-" + ("2025" or "2026") + "-" + six characters in A-Z or 0-9; then it
sets proUnlocked to true and licenseKey to key and leaves the rest of the state
unchanged; for every other key the state is unchanged, so an unlock flag that was false
stays false. -/
theorem C11_unlockPro_format (key : JsVal) (prev : State) :
    (licenseOk key = true ↔ ∃ s : String, key = .str s ∧ isLicenseKeyForm s) ∧
    ((∃ s : String, key = .str s ∧ isLicenseKeyForm s) →
      unlockPro key prev = { prev with proUnlocked := .bool true, licenseKey := key }) ∧
    ((¬ ∃ s : String, key = .str s ∧ isLicenseKeyForm s) →
      unlockPro key prev = prev ∧
      (prev.proUnlocked = .bool false → (unlockPro key prev).proUnlocked = .bool false)) := by
  refine ⟨licenseOk_iff key, ?_, ?_⟩
  · intro h
    have hok := (licenseOk_iff key).2 h
    simp [unlockPro, hok]
  · intro h
    have hok : licenseOk key = false := by
      cases hk : licenseOk key with
      | false => rfl
      | true => exact absurd ((licenseOk_iff key).1 hk) h
    have hsame : unlockPro key prev = prev := by simp [unlockPro, hok]
    exact ⟨hsame, fun hp => by rw [hsame]; exact hp⟩

/-- The key "NSQ-2025-ABC123" unlocks the default state; the keys "NSQ-2027-ABC123",
"NSQ-2025-abc123" and the number 5 leave it as it is. -/
theorem C11_unlockPro_format_witness :
    unlockPro (.str "NSQ-2025-ABC123") (defaultData "demo" "2025-01-01") =
      { defaultData "demo" "2025-01-01" with
        proUnlocked := .bool true, licenseKey := .str "NSQ-2025-ABC123" } ∧
    unlockPro (.str "NSQ-2027-ABC123") (defaultData "demo" "2025-01-01") =
      defaultData "demo" "2025-01-01" ∧
    unlockPro (.str "NSQ-2025-abc123") (defaultData "demo" "2025-01-01") =
      defaultData "demo" "2025-01-01" ∧
    unlockPro (.num (.fin 5)) (defaultData "demo" "2025-01-01") =
      defaultData "demo" "2025-01-01" := by
  have hbad : ∀ key : JsVal, licenseOk key = false →
      ¬ ∃ s : String, key = .str s ∧ isLicenseKeyForm s := by
    intro key hk h
    rw [(licenseOk_iff key).2 h] at hk
    exact absurd hk (by simp)
  refine ⟨?_, ?_, ?_, ?_⟩
  · exact (C11_unlockPro_format (.str "NSQ-2025-ABC123") (defaultData "demo" "2025-01-01")).2.1
      ((licenseOk_iff _).1 (by decide))
  · exact ((C11_unlockPro_format (.str "NSQ-2027-ABC123") (defaultData "demo" "2025-01-01")).2.2
      (hbad _ (by decide))).1
  · exact ((C11_unlockPro_format (.str "NSQ-2025-abc123") (defaultData "demo" "2025-01-01")).2.2
      (hbad _ (by decide))).1
  · exact ((C11_unlockPro_format (.num (.fin 5)) (defaultData "demo" "2025-01-01")).2.2
      (hbad _ (by decide))).1

/-! ## The order of the items -/

/-- A sum does not depend on the order of its terms. -/
theorem JsNum.sum_perm {l l' : List JsNum} (h : l.Perm l') : JsNum.sum l = JsNum.sum l' := by
  induction h with
  | nil => rfl
  | cons x _ ih => simp only [JsNum.sum, ih]
  | swap x y l =>
      simp only [JsNum.sum]
      rw [← JsNum.add_assoc_js, ← JsNum.add_assoc_js, JsNum.add_comm_js y x]
  | trans _ _ ih1 ih2 => exact ih1.trans ih2

theorem subtotalSpec_perm {items items' : List Item} (h : items.Perm items') :
    subtotalSpec items = subtotalSpec items' :=
  JsNum.sum_perm (h.map lineAmount)

theorem weightedRateSpec_perm {items items' : List Item} (h : items.Perm items') :
    weightedRateSpec items = weightedRateSpec items' := by
  unfold weightedRateSpec
  rw [subtotalSpec_perm h]
  split
  · rfl
  · exact JsNum.sum_perm (h.map _)

/-- The value `gstAmt` is the sum over the items of quantity x price x (rate / 100). -/
theorem gstAmt_eq_sum (data : State) :
    gstAmt data =
      JsNum.sum (data.invoice.items.map (fun it => lineAmount it * (numOrZero it.gst / .fin 100))) :=
  JsNum.foldl_zero_eq (fun it => lineAmount it * (numOrZero it.gst / JsNum.fin 100))
    data.invoice.items

namespace JsNum

/-- Scaling the finite factor by a positive rational does not change an infinite product. -/
theorem infTimes_pos_mul (p : Bool) (S y : ℚ) (hS : 0 < S) :
    infTimes p (S * y) = infTimes p y := by
  simp [infTimes, mul_eq_zero, hS.ne', mul_pos_iff_of_pos_left hS]

/-- A positive finite factor leaves `NaN` and the infinities as they are. -/
theorem pos_mul_of_not_finite (S : ℚ) (hS : 0 < S) (a : JsNum) (ha : a.isFinite = false) :
    fin S * a = a := by
  cases a <;> simp_all [isFinite, mul_def, mul, infTimes, hS.ne']

theorem mul_pos_of_not_finite (S : ℚ) (hS : 0 < S) (a : JsNum) (ha : a.isFinite = false) :
    a * fin S = a := by
  cases a <;> simp_all [isFinite, mul_def, mul, infTimes, hS.ne']

theorem infTimes_not_finite (p : Bool) (t : ℚ) : (infTimes p t).isFinite = false := by
  unfold infTimes
  split_ifs <;> rfl

theorem mul_pinf_not_finite (t : JsNum) : (t * pinf).isFinite = false := by
  cases t <;> first | rfl | exact infTimes_not_finite true _

theorem mul_ninf_not_finite (t : JsNum) : (t * ninf).isFinite = false := by
  cases t <;> first | rfl | exact infTimes_not_finite false _

/-- Multiplication by a positive finite number distributes over a sum. -/
theorem pos_mul_add (S : ℚ) (hS : 0 < S) (a b : JsNum) :
    fin S * (a + b) = fin S * a + fin S * b := by
  cases a <;> cases b <;> simp [add_def, add, mul_def, mul, infTimes, hS.ne', hS, mul_add]

/-- A positive finite factor can be moved across a product. -/
theorem mul_mul_pos (S : ℚ) (hS : 0 < S) (t w : JsNum) :
    t * w * fin S = t * (fin S * w) := by
  cases w with
  | fin y =>
      cases t with
      | fin x => simp only [fin_mul_fin]; congr 1; ring
      | nan => rfl
      | pinf =>
          show infTimes true y * fin S = infTimes true (S * y)
          rw [infTimes_pos_mul _ _ _ hS, mul_pos_of_not_finite S hS _ (infTimes_not_finite _ _)]
      | ninf =>
          show infTimes false y * fin S = infTimes false (S * y)
          rw [infTimes_pos_mul _ _ _ hS, mul_pos_of_not_finite S hS _ (infTimes_not_finite _ _)]
  | nan => rw [pos_mul_of_not_finite S hS nan rfl, mul_nan, nan_mul]
  | pinf =>
      rw [pos_mul_of_not_finite S hS pinf rfl]
      exact mul_pos_of_not_finite S hS _ (mul_pinf_not_finite t)
  | ninf =>
      rw [pos_mul_of_not_finite S hS ninf rfl]
      exact mul_pos_of_not_finite S hS _ (mul_ninf_not_finite t)

/-- Undoing a division by a positive number: `S * ((l / S) * x) = l * x`. -/
theorem pos_mul_div_mul (S l : ℚ) (hS : 0 < S) (x : JsNum) :
    fin S * (fin l / fin S * x) = fin l * x := by
  rw [fin_div_fin _ _ hS.ne']
  have hl : S * (l / S) = l := by field_simp
  cases x with
  | fin y => simp only [fin_mul_fin]; congr 1; rw [← mul_assoc, hl]
  | nan => rfl
  | pinf =>
      show fin S * infTimes true (l / S) = infTimes true l
      rw [pos_mul_of_not_finite S hS _ (infTimes_not_finite _ _), ← infTimes_pos_mul true S _ hS, hl]
  | ninf =>
      show fin S * infTimes false (l / S) = infTimes false l
      rw [pos_mul_of_not_finite S hS _ (infTimes_not_finite _ _), ← infTimes_pos_mul false S _ hS, hl]

end JsNum

/-- With finite line amounts, a positive divisor `S` times the sum of the weighted rates
is the sum of the per-line taxes. -/
theorem pos_mul_weighted_sum (items : List Item) (S : ℚ) (hS : 0 < S)
    (hlines : ∀ it ∈ items, (lineAmount it).isFinite = true) :
    JsNum.fin S * JsNum.sum (items.map (fun it =>
        (lineAmount it / .fin S) * (numOrZero it.gst / .fin 100))) =
      JsNum.sum (items.map (fun it => lineAmount it * (numOrZero it.gst / .fin 100))) := by
  induction items with
  | nil => simp [JsNum.sum]
  | cons it rest ih =>
      obtain ⟨l, hl⟩ := (JsNum.isFinite_iff _).1 (hlines it (List.mem_cons_self _ _))
      simp only [List.map_cons, JsNum.sum]
      rw [JsNum.pos_mul_add S hS, ih (fun x hx => hlines x (List.mem_cons_of_mem _ hx)), hl,
        JsNum.pos_mul_div_mul S l hS]

/-- With a finite positive subtotal `S`, the weighted rate times `S` is `gstAmt`. -/
theorem pos_subtotal_mul_weightedGST (data : State) (S : ℚ)
    (hsub : (totals data).sub = .fin S) (hS : 0 < S) :
    JsNum.fin S * weightedGST data.invoice.items = gstAmt data := by
  rw [totals_sub] at hsub
  have hlines : ∀ it ∈ data.invoice.items, (lineAmount it).isFinite = true := by
    intro it hit
    have hfin : (subtotalSpec data.invoice.items).isFinite = true := by rw [hsub]; rfl
    exact (JsNum.isFinite_sum _).1 hfin (lineAmount it) (List.mem_map.2 ⟨it, hit, rfl⟩)
  have hnle : ¬ S ≤ 0 := not_le.2 hS
  rw [weightedGST_eq_spec, gstAmt_eq_sum, weightedRateSpec, hsub]
  simp only [JsNum.le_fin_fin, hnle, decide_False, Bool.false_eq_true, if_false]
  exact pos_mul_weighted_sum data.invoice.items S hS hlines

/-- Claim C14: a Place of Supply chosen by the user is discarded: for every state and
every value v, update("invoice.placeOfSupply", v) succeeds and yields a state whose
invoice.placeOfSupply is client.state when that is non-empty (truthy) and profile.state
otherwise, whatever v is, whose invoice.interState is (profile.state !== client.state),
and which is otherwise the state before. -/
theorem C14_placeOfSupply_discarded (data : State) (v : JsVal) :
    (∃ next : State, update "invoice.placeOfSupply" v data = some next ∧
      next.invoice.placeOfSupply =
        (if data.client.state.truthy then data.client.state else data.profile.state) ∧
      next.invoice.interState = .bool (JsVal.strictNe data.profile.state data.client.state) ∧
      next = { data with
        invoice := { data.invoice with
          interState := next.invoice.interState
          placeOfSupply := next.invoice.placeOfSupply } }) ∧
    (∀ w : JsVal, update "invoice.placeOfSupply" w data = update "invoice.placeOfSupply" v data) ∧
    (update "invoice.placeOfSupply" (.str "Goa") (defaultData "demo" "2025-01-01")).map
        (fun next => next.invoice.placeOfSupply) = some (.str "Rajasthan") := by
  have hupd : ∀ w : JsVal, update "invoice.placeOfSupply" w data = some
      { data with
        invoice := { data.invoice with
          interState := .bool (JsVal.strictNe data.profile.state data.client.state)
          placeOfSupply := data.client.state.or data.profile.state } } := by
    intro w
    simp [update, splitPath, splitPathAux, assignPath, Invoice.assign, startsWith]
  refine ⟨⟨_, hupd v, rfl, rfl, rfl⟩, fun w => by rw [hupd w, hupd v], ?_⟩
  simp [update, splitPath, splitPathAux, assignPath, Invoice.assign, startsWith, defaultData,
    JsVal.or, JsVal.truthy]

end GstBill
